import Mathlib

/-!
Verification of the call-lifecycle and signaling-relay core of the
Matrix-chat personal server.

The definitions below are a shallow embedding of:
  * the SQL schema of `call_sessions`, `call_participants`, `call_events`
    (migrations 004 and 005),
  * the Express route handlers for initiate / answer / reject / end /
    toggle-audio / toggle-video / GET active (call-routes),
  * the in-memory socket relay: `userSockets`, `callParticipants`,
    `pendingCallNotifications`, `sendToTarget`, the `register-user` and
    `disconnect` socket handlers, `notifyIncomingCall`, `notifyCallEnded`
    (call-signaling.js).

PostgreSQL `NOW()` is modelled as an explicit `now : Nat` argument, and a
randomly generated `call_id` as an explicit argument assumed fresh where the
code relies on freshness.  Each SQL statement of a handler is translated to
one pure update on a `Store` value; BEGIN/COMMIT/ROLLBACK become "return the
updated store" versus "return the store unchanged".
-/

namespace CallCore

/-- Status column of `call_sessions`: CHECK constraint of migration 004. -/
inductive SessionStatus
  | ringing | active | ended | rejected | missed
deriving DecidableEq, Repr

/-- Status column of `call_participants`: CHECK constraint of migration 004. -/
inductive PartStatus
  | invited | ringing | joined | leftCall | rejected
deriving DecidableEq, Repr

/-- A row of `call_sessions` (migration 004). `id` (surrogate UUID) is
omitted; `call_id` is the key the code uses everywhere. -/
structure Session where
  call_id : String
  room_id : String
  call_type : String
  status : SessionStatus
  initiator_id : String
  started_at : Option Nat
  ended_at : Option Nat
  created_at : Nat
deriving DecidableEq, Repr

/-- A row of `call_participants` (migration 004). -/
structure Participant where
  call_id : String
  matrix_user_id : String
  status : PartStatus
  audio_enabled : Bool
  video_enabled : Bool
  joined_at : Option Nat
  left_at : Option Nat
deriving DecidableEq, Repr

/-- A row of `call_events` (migration 004); `metadata` is abstracted away
(it is never read by any lifecycle decision). -/
structure CallEvent where
  call_id : String
  matrix_user_id : String
  event_type : String
deriving DecidableEq, Repr

/-- The durable store: the three call tables. -/
structure Store where
  sessions : List Session
  participants : List Participant
  events : List CallEvent
deriving DecidableEq, Repr

/-- The query `SELECT ... FROM call_sessions WHERE call_id = $1` (at most one row by
the UNIQUE constraint on `call_id`; the code reads `result.rows[0]`). -/
def findSession (db : Store) (callId : String) : Option Session :=
  db.sessions.find? (fun s => s.call_id = callId)

/-- Declared uniqueness constraints of a table, each one the list of the
constrained columns. -/
structure TableSchema where
  name : String
  uniqueConstraints : List (List String)
deriving DecidableEq, Repr

/-- Table `call_sessions` as created by migration 004: `call_id` is UNIQUE. -/
def callSessionsTable : TableSchema :=
  { name := "call_sessions", uniqueConstraints := [["call_id"]] }

/-- Table `call_participants` as created by migration 004: no uniqueness beyond
the surrogate primary key. -/
def callParticipantsTable004 : TableSchema :=
  { name := "call_participants", uniqueConstraints := [] }

/-- Migration 005: `ALTER TABLE call_participants ADD CONSTRAINT
uniq_call_participants_user UNIQUE (call_id, matrix_user_id)`. -/
def migration005 (t : TableSchema) : TableSchema :=
  { t with uniqueConstraints :=
      t.uniqueConstraints ++ [["call_id", "matrix_user_id"]] }

/-- Table `call_participants` after all migrations. -/
def callParticipantsTable : TableSchema :=
  migration005 callParticipantsTable004

/-- Number of participant rows for a given `(call_id, matrix_user_id)`. -/
def partRowCount (db : Store) (callId userId : String) : Nat :=
  db.participants.countP (fun p => p.call_id = callId ∧ p.matrix_user_id = userId)

/-- Database well-formedness enforced by the schema: at most one session per
`call_id` (UNIQUE of migration 004) and at most one participant row per
`(call_id, matrix_user_id)` (UNIQUE of migration 005). -/
def StoreWF (db : Store) : Prop :=
  (∀ c, (db.sessions.countP (fun s => s.call_id = c)) ≤ 1) ∧
  (∀ c u, partRowCount db c u ≤ 1)

/-- Outcome of the `answer` transaction, following the error taxonomy:
`notFound` is the 404 branch, `invalidState` the "Call is not in ringing
state" branch (InvalidStateError). -/
inductive AnswerOutcome
  | ok | notFound | invalidState
deriving DecidableEq, Repr

/-- The two UPDATE/INSERT statements of the answer handler acting on
`call_participants`: `UPDATE ... SET status = 'joined', joined_at = NOW()
WHERE call_id = $1 AND matrix_user_id = $2`, then `INSERT ... SELECT ...
WHERE NOT EXISTS (...)`. -/
def upsertJoined (ps : List Participant) (callId userId : String) (now : Nat) :
    List Participant :=
  let updated := ps.map (fun p =>
    if p.call_id = callId ∧ p.matrix_user_id = userId then
      { p with status := PartStatus.joined, joined_at := some now }
    else p)
  if ps.any (fun p => p.call_id = callId ∧ p.matrix_user_id = userId) then
    updated
  else
    updated ++ [{ call_id := callId, matrix_user_id := userId,
                  status := PartStatus.joined, audio_enabled := true,
                  video_enabled := true, joined_at := some now,
                  left_at := none }]

/-- The write set of a successful `answer` transaction: session to `active`
with `started_at = NOW()`, participant upserted to `joined`, and a
`call_answered` event appended. -/
def applyAnswerWrites (db : Store) (callId userId : String) (now : Nat) : Store :=
  { sessions := db.sessions.map (fun s =>
      if s.call_id = callId then
        { s with status := SessionStatus.active, started_at := some now }
      else s),
    participants := upsertJoined db.participants callId userId now,
    events := db.events ++
      [{ call_id := callId, matrix_user_id := userId,
         event_type := "call_answered" }] }

/-- The `answer` transaction (POST /api/calls/:callId/answer), database part:
SELECT the session, 404 if absent, InvalidStateError rollback if the status
is not `ringing`, otherwise apply the writes and commit. -/
def answerDb (db : Store) (callId userId : String) (now : Nat) :
    AnswerOutcome × Store :=
  match findSession db callId with
  | none => (AnswerOutcome.notFound, db)
  | some s =>
    if s.status = SessionStatus.ringing then
      (AnswerOutcome.ok, applyAnswerWrites db callId userId now)
    else
      (AnswerOutcome.invalidState, db)

/-- Outcome of `reject` / `end` (database part): 404 or success. -/
inductive BasicOutcome
  | ok | notFound
deriving DecidableEq, Repr

/-- The `reject` transaction (POST /api/calls/:callId/reject), database part.
There is no check of the current status: the session is set to `rejected`
with `ended_at = NOW()`, the rejecting user's participant row (if any) is set
to `rejected`, and a `call_rejected` event is appended. -/
def rejectDb (db : Store) (callId userId : String) (now : Nat) :
    BasicOutcome × Store :=
  match findSession db callId with
  | none => (BasicOutcome.notFound, db)
  | some _ =>
    (BasicOutcome.ok,
     { sessions := db.sessions.map (fun s =>
         if s.call_id = callId then
           { s with status := SessionStatus.rejected, ended_at := some now }
         else s),
       participants := db.participants.map (fun p =>
         if p.call_id = callId ∧ p.matrix_user_id = userId then
           { p with status := PartStatus.rejected }
         else p),
       events := db.events ++
         [{ call_id := callId, matrix_user_id := userId,
            event_type := "call_rejected" }] })

/-- The `end` transaction (POST /api/calls/:callId/end), database part.
No status precondition: the session is set to `ended` with
`ended_at = NOW()`, every participant still `joined` becomes `left`, and a
`call_ended` event is appended. -/
def endDb (db : Store) (callId userId : String) (now : Nat) :
    BasicOutcome × Store :=
  match findSession db callId with
  | none => (BasicOutcome.notFound, db)
  | some _ =>
    (BasicOutcome.ok,
     { sessions := db.sessions.map (fun s =>
         if s.call_id = callId then
           { s with status := SessionStatus.ended, ended_at := some now }
         else s),
       participants := db.participants.map (fun p =>
         if p.call_id = callId ∧ p.status = PartStatus.joined then
           { p with status := PartStatus.leftCall, left_at := some now }
         else p),
       events := db.events ++
         [{ call_id := callId, matrix_user_id := userId,
            event_type := "call_ended" }] })

/-- Which of the two toggle routes (toggle-audio / toggle-video). -/
inductive MediaKind
  | audioKind | videoKind
deriving DecidableEq, Repr

/-- The toggle-audio / toggle-video routes, database part: UPDATE the
corresponding boolean on the participant row for `(callId, userId)` and
append an `audio_toggled` / `video_toggled` event.  No session-status
precondition and no 404 check. -/
def toggleMedia (db : Store) (callId userId : String) (kind : MediaKind)
    (enabled : Bool) : Store :=
  { sessions := db.sessions,
    participants := db.participants.map (fun p =>
      if p.call_id = callId ∧ p.matrix_user_id = userId then
        match kind with
        | MediaKind.audioKind => { p with audio_enabled := enabled }
        | MediaKind.videoKind => { p with video_enabled := enabled }
      else p),
    events := db.events ++
      [{ call_id := callId, matrix_user_id := userId,
         event_type := match kind with
           | MediaKind.audioKind => "audio_toggled"
           | MediaKind.videoKind => "video_toggled" }] }

/-- The observable actions of the initiate handler, in program order.  Each
constructor is one effectful step of POST /api/calls/initiate's success path:
the three INSERTs inside the transaction, the best-effort Matrix
`m.call.invite` chat event, the display-name fetch, COMMIT, the HTTP
response, and the `notifyIncomingCall` relay step. -/
inductive InitStep
  | insertSession | insertParticipant | insertEvent
  | matrixInvite | fetchDisplayName
  | commitTxn | respond | notifyIncoming
deriving DecidableEq, Repr

/-- Result of `initiate`: ValidationError (400) or the created session. -/
inductive InitiateOutcome
  | validationError
  | created (callId : String)
deriving DecidableEq, Repr

/-- The initiate handler (POST /api/calls/initiate).  `callId` stands for the
fresh `crypto.randomBytes(16).toString('hex')` value.  Returns the committed
store, the ordered trace of effectful steps, and the outcome.  Validation:
all four body fields required and `callType ∈ {voice, video}`.  On the
success path the transaction inserts the `ringing` session, the initiator's
`joined` participant row and the `call_initiated` event, and commits before
`notifyIncomingCall` runs. -/
def initiate (db : Store) (roomId callType accessToken userId callId : String)
    (now : Nat) : Store × List InitStep × InitiateOutcome :=
  if roomId = "" ∨ callType = "" ∨ accessToken = "" ∨ userId = "" then
    (db, [], InitiateOutcome.validationError)
  else if ¬ (callType = "voice" ∨ callType = "video") then
    (db, [], InitiateOutcome.validationError)
  else
    ({ sessions := db.sessions ++
         [{ call_id := callId, room_id := roomId, call_type := callType,
            status := SessionStatus.ringing, initiator_id := userId,
            started_at := none, ended_at := none, created_at := now }],
       participants := db.participants ++
         [{ call_id := callId, matrix_user_id := userId,
            status := PartStatus.joined, audio_enabled := true,
            video_enabled := true, joined_at := none, left_at := none }],
       events := db.events ++
         [{ call_id := callId, matrix_user_id := userId,
            event_type := "call_initiated" }] },
     [InitStep.insertSession, InitStep.insertParticipant, InitStep.insertEvent,
      InitStep.matrixInvite, InitStep.fetchDisplayName, InitStep.commitTxn,
      InitStep.respond, InitStep.notifyIncoming],
     InitiateOutcome.created callId)

/-- GET /api/calls/:callId/status: the session row plus all its participant
rows, or 404 (`none`) if the `call_id` is unknown. -/
def getStatus (db : Store) (callId : String) :
    Option (Session × List Participant) :=
  match findSession db callId with
  | none => none
  | some s => some (s, db.participants.filter (fun p => p.call_id = callId))

/-- GET /api/calls/active: ringing sessions younger than 90 seconds whose
initiator is not `userId` and where `userId` has a participant row with
status `invited` (the SQL join of the handler). -/
def listActive (db : Store) (userId : String) (now : Nat) : List Session :=
  db.sessions.filter (fun s =>
    s.status = SessionStatus.ringing ∧
    s.initiator_id ≠ userId ∧
    now < s.created_at + 90 ∧
    db.participants.any (fun p =>
      p.call_id = s.call_id ∧ p.matrix_user_id = userId ∧
      p.status = PartStatus.invited))

/-- Lookup in a JS `Map<String, α>` modelled as an association list. -/
def mget {α : Type} (m : List (String × α)) (k : String) : Option α :=
  (m.find? (fun kv => kv.fst = k)).map Prod.snd

/-- JS `Map.set`: replace the value at `k` if present (keeping insertion
order), otherwise append the new entry. -/
def mset {α : Type} (m : List (String × α)) (k : String) (v : α) :
    List (String × α) :=
  if m.any (fun kv => kv.fst = k) then
    m.map (fun kv => if kv.fst = k then (k, v) else kv)
  else m ++ [(k, v)]

/-- JS `Map.delete`. -/
def mdelete {α : Type} (m : List (String × α)) (k : String) :
    List (String × α) :=
  m.filter (fun kv => kv.fst ≠ k)

/-- JS `Set.add`: a set ignores a re-added element. -/
def addToSet (l : List String) (x : String) : List String :=
  if x ∈ l then l else l ++ [x]

/-- The `callEvent` object built by `notifyIncomingCall` and stored in the
pending queue / emitted as `incoming-call` (the static `iceServers` list is
omitted). -/
structure PendingCall where
  callId : String
  callType : String
  roomId : String
  callerName : String
  callerId : String
deriving DecidableEq, Repr

/-- Server-to-client socket events, with the payload fields the claims
read. -/
inductive ServerEvent
  | incomingCall (p : PendingCall)
  | callAnswered (callId answeredBy : String)
  | callRejected (callId rejectedBy : String)
  | callEnded (callId endedBy : String)
  | userJoined (userId : String)
  | userLeft (userId : String)
  | relayed (eventName : String) (fromUserId : String)
deriving DecidableEq, Repr

/-- One `emit` to one socket. -/
structure Emission where
  socketId : String
  event : ServerEvent
deriving DecidableEq, Repr

/-- The in-memory relay state of call-signaling.js: `userSockets`
(userId → socket ids, many devices per user), `callParticipants`
(callId → userIds tracked for broadcast), `pendingCallNotifications`
(userId → queued incoming-call payloads), and the socket.io room membership
(callId → socket ids that called `socket.join(callId)`). -/
structure RelayState where
  userSockets : List (String × List String)
  callParticipants : List (String × List String)
  pendingCallNotifications : List (String × List PendingCall)
  rooms : List (String × List String)
deriving DecidableEq, Repr

/-- The `register-user` socket handler: add the socket to the user's device
set, then deliver every pending incoming-call notification whose session is
still `ringing` in the store to the registering socket, and delete the
user's pending entry (the delete happens only when a non-empty pending list
was found, exactly as in the code). -/
def registerUser (st : RelayState) (db : Store) (userId socketId : String) :
    RelayState × List Emission :=
  let us := mset st.userSockets userId
    (addToSet ((mget st.userSockets userId).getD []) socketId)
  match mget st.pendingCallNotifications userId with
  | some pending =>
    if pending ≠ [] then
      ({ st with userSockets := us,
                 pendingCallNotifications :=
                   mdelete st.pendingCallNotifications userId },
       pending.filterMap (fun e =>
         match findSession db e.callId with
         | some s =>
           if s.status = SessionStatus.ringing then
             some { socketId := socketId, event := ServerEvent.incomingCall e }
           else none
         | none => none))
    else ({ st with userSockets := us }, [])
  | none => ({ st with userSockets := us }, [])

/-- The `join-call` socket handler: join the socket.io room, track the user
in `callParticipants`, append a `socket_connected` event, and broadcast
`user-joined` to the other sockets in the room. -/
def joinCall (st : RelayState) (db : Store) (callId userId socketId : String) :
    RelayState × Store × List Emission :=
  let st' := { st with
    rooms := mset st.rooms callId
      (addToSet ((mget st.rooms callId).getD []) socketId),
    callParticipants := mset st.callParticipants callId
      (addToSet ((mget st.callParticipants callId).getD []) userId) }
  let db' := { db with events := db.events ++
    [{ call_id := callId, matrix_user_id := userId,
       event_type := "socket_connected" }] }
  (st', db',
   (((mget st'.rooms callId).getD []).filter (fun sid => sid ≠ socketId)).map
     (fun sid => { socketId := sid, event := ServerEvent.userJoined userId }))

/-- The helper `sendToTarget(eventName, callId, senderId, targetUserId, payload)`:
unicast to every registered socket of a named target, or — when the target
is absent or the `"all"` sentinel — broadcast to every socket of every
tracked call participant other than the sender. -/
def sendToTarget (st : RelayState) (eventName callId senderId : String)
    (targetUserId : Option String) : List Emission :=
  let broadcast :=
    match mget st.callParticipants callId with
    | some ps =>
      (ps.filter (fun p => p ≠ senderId)).flatMap (fun p =>
        ((mget st.userSockets p).getD []).map (fun sid =>
          { socketId := sid, event := ServerEvent.relayed eventName senderId }))
    | none => []
  match targetUserId with
  | some t =>
    if t ≠ "all" then
      match mget st.userSockets t with
      | some ss => ss.map (fun sid =>
          { socketId := sid, event := ServerEvent.relayed eventName senderId })
      | none => []
    else broadcast
  | none => broadcast

/-- First half of the `disconnect` socket handler: remove the socket from
its user's device set, deleting the user's registry entry once the set
becomes empty. -/
def unregisterSocket (m : List (String × List String)) (socketId : String)
    (sockUserId : Option String) : List (String × List String) :=
  match sockUserId with
  | some u =>
    match mget m u with
    | some ss =>
      let ss' := ss.filter (fun sid => sid ≠ socketId)
      if ss' = [] then mdelete m u else mset m u ss'
    | none => m
  | none => m

/-- The disconnect handler's conditional store write and `user-left` room
broadcast, taken only when the socket had both a user and a call
attached. -/
def disconnectWrite (st : RelayState) (db : Store) (socketId : String)
    (sockUserId sockCallId : Option String) (now : Nat) :
    Store × List Emission :=
  match sockUserId, sockCallId with
  | some u, some c =>
    ({ db with participants := db.participants.map (fun p =>
         if p.call_id = c ∧ p.matrix_user_id = u ∧
            p.status = PartStatus.joined then
           { p with status := PartStatus.leftCall, left_at := some now }
         else p) },
     (((mget st.rooms c).getD []).filter (fun sid => sid ≠ socketId)).map
       (fun sid => { socketId := sid, event := ServerEvent.userLeft u }))
  | some _, none => (db, [])
  | none, some _ => (db, [])
  | none, none => (db, [])

/-- The `disconnect` socket handler.  `sockUserId` / `sockCallId` are the
`socket.userId` / `socket.callId` properties set by `register-user` and
`join-call`.  The socket is removed from its user's device set; then,
whenever the socket had both a user and a call attached — with no check
that it was the user's last device — the participant row still `joined` is
marked `left` and `user-left` is broadcast to the rest of the socket.io
room.  socket.io's automatic removal of the disconnected socket from its
rooms is applied last. -/
def onDisconnect (st : RelayState) (db : Store) (socketId : String)
    (sockUserId sockCallId : Option String) (now : Nat) :
    RelayState × Store × List Emission :=
  ({ st with
      userSockets := unregisterSocket st.userSockets socketId sockUserId,
      rooms := st.rooms.map (fun kv =>
        (kv.fst, kv.snd.filter (fun sid => sid ≠ socketId))) },
   (disconnectWrite st db socketId sockUserId sockCallId now).fst,
   (disconnectWrite st db socketId sockUserId sockCallId now).snd)

/-- The function `notifyIncomingCall`: resolve the room members (passed in, the result of
the external membership lookup), exclude the initiator, then for each
remaining member either emit `incoming-call` to every registered socket or
append the payload to the member's pending queue.  Note that this function
touches no database table: it takes no `Store` and creates no participant
rows. -/
def notifyIncomingCall (st : RelayState) (roomMembers : List String)
    (roomId callId callType initiatorId callerName : String) :
    RelayState × List Emission :=
  let callEvent : PendingCall :=
    { callId := callId, callType := callType, roomId := roomId,
      callerName := callerName, callerId := initiatorId }
  let recipients := roomMembers.filter (fun m => m ≠ initiatorId)
  recipients.foldl
    (fun (acc : RelayState × List Emission) recipientId =>
      let cur := acc.fst
      let enqueue : RelayState × List Emission :=
        ({ cur with
            pendingCallNotifications := mset cur.pendingCallNotifications
              recipientId
              (((mget cur.pendingCallNotifications recipientId).getD [])
                ++ [callEvent]) }, acc.snd)
      match mget cur.userSockets recipientId with
      | some ss =>
        if ss ≠ [] then
          (cur, acc.snd ++ ss.map (fun sid =>
            { socketId := sid, event := ServerEvent.incomingCall callEvent }))
        else enqueue
      | none => enqueue)
    (st, [])

/-- The function `notifyCallEnded(io, callId, endedBy)`: emit `call-ended` directly to
every registered socket of every tracked participant other than `endedBy`,
and then additionally to every socket in the socket.io room `callId`. -/
def notifyCallEnded (st : RelayState) (callId endedBy : String) :
    List Emission :=
  let direct :=
    match mget st.callParticipants callId with
    | some ps =>
      (ps.filter (fun p => p ≠ endedBy)).flatMap (fun p =>
        ((mget st.userSockets p).getD []).map (fun sid =>
          { socketId := sid, event := ServerEvent.callEnded callId endedBy }))
    | none => []
  direct ++
    ((mget st.rooms callId).getD []).map (fun sid =>
      { socketId := sid, event := ServerEvent.callEnded callId endedBy })

/-- Phase of one in-flight `answer` transaction in the interleaving model.
`validated` means the SELECT observed `ringing`; `writeDone` means the
UPDATE statements have executed (the transaction then holds the row lock on
the session until COMMIT). -/
inductive TxnPhase
  | start
  | validated
  | writeDone
  | finished (o : AnswerOutcome)
deriving DecidableEq, Repr

/-- One in-flight `answer` transaction. -/
structure AnswerTxn where
  userId : String
  now : Nat
  phase : TxnPhase
deriving DecidableEq, Repr

/-- The three interleaving-relevant suspension points of the answer handler:
the validation SELECT (which, in the code, is a plain SELECT taking no row
lock), the UPDATE statements (which take the row lock on the session), and
COMMIT (which publishes the writes and releases the lock). -/
inductive TxnStep
  | readStep | writeStep | commitStep
deriving DecidableEq, Repr

/-- Two `answer` transactions racing on the same `callId`: the committed
store (what any statement of a READ COMMITTED transaction sees), which of
the two transactions currently holds the session row lock, and the two
transactions' local states. -/
structure ConcState where
  committed : Store
  lockHeld : Option Bool
  txn1 : AnswerTxn
  txn2 : AnswerTxn
deriving DecidableEq, Repr

/-- The transaction of `who` (`true` = txn1). -/
def getTxn (cs : ConcState) (who : Bool) : AnswerTxn :=
  if who then cs.txn1 else cs.txn2

/-- Replace the transaction of `who`. -/
def setTxn (cs : ConcState) (who : Bool) (t : AnswerTxn) : ConcState :=
  if who then { cs with txn1 := t } else { cs with txn2 := t }

/-- Execute one step of one of the two racing `answer` transactions under
READ COMMITTED semantics.  `readStep` runs the validation SELECT against the
committed store — it takes no lock, because the code's SELECT has no FOR
UPDATE — and either fails the transaction (404 / InvalidStateError rollback)
or validates it.  `writeStep` executes the UPDATEs, allowed only when the
session row lock is free or already held by this transaction (a blocked
writer simply waits: a step that is not enabled leaves the state unchanged).
`commitStep` publishes the blind writes to the committed store and releases
the lock. -/
def stepAnswer (callId : String) (cs : ConcState) (who : Bool)
    (step : TxnStep) : ConcState :=
  let t := getTxn cs who
  match step with
  | TxnStep.readStep =>
    match t.phase with
    | TxnPhase.start =>
      match findSession cs.committed callId with
      | none =>
        setTxn cs who { t with phase := TxnPhase.finished AnswerOutcome.notFound }
      | some s =>
        if s.status = SessionStatus.ringing then
          setTxn cs who { t with phase := TxnPhase.validated }
        else
          setTxn cs who
            { t with phase := TxnPhase.finished AnswerOutcome.invalidState }
    | _ => cs
  | TxnStep.writeStep =>
    match t.phase with
    | TxnPhase.validated =>
      if cs.lockHeld = none ∨ cs.lockHeld = some who then
        { setTxn cs who { t with phase := TxnPhase.writeDone } with
            lockHeld := some who }
      else cs
    | _ => cs
  | TxnStep.commitStep =>
    match t.phase with
    | TxnPhase.writeDone =>
      { setTxn cs who { t with phase := TxnPhase.finished AnswerOutcome.ok } with
          committed := applyAnswerWrites cs.committed callId t.userId t.now,
          lockHeld := none }
    | _ => cs

/-- Run a schedule (an arbitrary interleaving of the two transactions'
steps). -/
def runAnswerRace (callId : String) (init : ConcState)
    (sched : List (Bool × TxnStep)) : ConcState :=
  sched.foldl (fun cs ws => stepAnswer callId cs ws.fst ws.snd) init

/-- Initial race state: both transactions at their first suspension point. -/
def mkRace (db : Store) (u1 u2 : String) (now1 now2 : Nat) : ConcState :=
  { committed := db, lockHeld := none,
    txn1 := { userId := u1, now := now1, phase := TxnPhase.start },
    txn2 := { userId := u2, now := now2, phase := TxnPhase.start } }

/-! ### Concrete fixtures used by witnesses and counterexamples -/

/-- An empty store (freshly migrated database). -/
def emptyStore : Store := { sessions := [], participants := [], events := [] }

/-- A session row in a given status. -/
def mkSession (st : SessionStatus) : Session :=
  { call_id := "c1", room_id := "r1", call_type := "video",
    status := st, initiator_id := "alice",
    started_at := none, ended_at := none, created_at := 100 }

/-- A store holding one `ringing` call `c1` initiated by alice, as left by
the initiate transaction. -/
def ringingStore : Store :=
  { sessions := [mkSession SessionStatus.ringing],
    participants := [{ call_id := "c1", matrix_user_id := "alice",
                       status := PartStatus.joined, audio_enabled := true,
                       video_enabled := true, joined_at := none,
                       left_at := none }],
    events := [{ call_id := "c1", matrix_user_id := "alice",
                 event_type := "call_initiated" }] }

/-- The `c1` session row once terminal (`ended` at 200). -/
def endedSession : Session :=
  let s := mkSession SessionStatus.ended
  { s with ended_at := some 200 }

/-- The same store after the call has ended (a terminal session). -/
def endedStore : Store :=
  { ringingStore with sessions := [endedSession] }

/-! ### Helper lemmas -/

/-- Running `find?` over a map that preserves `call_id` finds the image of what
`find?` finds. -/
theorem findSession_map_pres (l : List Session) (c : String)
    (f : Session → Session) (hf : ∀ s, (f s).call_id = s.call_id) :
    (l.map f).find? (fun s => s.call_id = c) =
      (l.find? (fun s => s.call_id = c)).map f := by
  induction l with
  | nil => rfl
  | cons a t ih =>
    by_cases h : a.call_id = c
    · rw [List.map_cons, List.find?_cons_of_pos, List.find?_cons_of_pos] <;>
        simp [hf, h]
    · rw [List.map_cons, List.find?_cons_of_neg, List.find?_cons_of_neg, ih] <;>
        simp [hf, h]

/-- Value of `findSession` after the answer write set: the matching session is now
`active` with `started_at` freshly overwritten. -/
theorem findSession_applyAnswerWrites (db : Store) (c uid : String) (n : Nat) :
    findSession (applyAnswerWrites db c uid n) c =
      (findSession db c).map (fun s =>
        { s with status := SessionStatus.active, started_at := some n }) := by
  have hmap := findSession_map_pres db.sessions c
    (fun s => if s.call_id = c then
      { s with status := SessionStatus.active, started_at := some n }
     else s)
    (fun s => by by_cases h : s.call_id = c <;> simp [h])
  simp only [findSession, applyAnswerWrites]
  rw [hmap]
  cases hfind : db.sessions.find? (fun s => s.call_id = c) with
  | none => rfl
  | some s =>
    have hc : s.call_id = c := by simpa using List.find?_some hfind
    simp [hc]

/-- Value of `findSession` after the reject write set. -/
theorem findSession_rejectWrites (db : Store) (c uid : String) (n : Nat)
    (s : Session) (hs : findSession db c = some s) :
    findSession (rejectDb db c uid n).snd c =
      some { s with status := SessionStatus.rejected, ended_at := some n } := by
  have hs' : db.sessions.find? (fun t => t.call_id = c) = some s := hs
  have hc : s.call_id = c := by simpa using List.find?_some hs'
  have hmap := findSession_map_pres db.sessions c
    (fun t => if t.call_id = c then
      { t with status := SessionStatus.rejected, ended_at := some n }
     else t)
    (fun t => by by_cases h : t.call_id = c <;> simp [h])
  simp only [rejectDb, findSession, hs']
  rw [hmap, hs']
  simp [hc]

/-- Value of `findSession` after the end write set. -/
theorem findSession_endWrites (db : Store) (c uid : String) (n : Nat)
    (s : Session) (hs : findSession db c = some s) :
    findSession (endDb db c uid n).snd c =
      some { s with status := SessionStatus.ended, ended_at := some n } := by
  have hs' : db.sessions.find? (fun t => t.call_id = c) = some s := hs
  have hc : s.call_id = c := by simpa using List.find?_some hs'
  have hmap := findSession_map_pres db.sessions c
    (fun t => if t.call_id = c then
      { t with status := SessionStatus.ended, ended_at := some n }
     else t)
    (fun t => by by_cases h : t.call_id = c <;> simp [h])
  simp only [endDb, findSession, hs']
  rw [hmap, hs']
  simp [hc]

/-! ### Claim C2 -/

/-- Claim C2: for every call session whose status is not `ringing`, a
sequential `answer(callId, userId)` fails with InvalidStateError and leaves
the session rows, participant rows and event log unchanged (the transaction
rolls back, returning the store exactly as it was). -/
theorem c2_answer_nonringing_no_mutation (db : Store) (callId userId : String)
    (now : Nat) (s : Session) (hs : findSession db callId = some s)
    (hnr : s.status ≠ SessionStatus.ringing) :
    answerDb db callId userId now = (AnswerOutcome.invalidState, db) := by
  simp [answerDb, hs, hnr]

/-- Witness for C2: answering the terminal call of `endedStore`. -/
theorem c2_witness :
    answerDb endedStore "c1" "bob" 300 = (AnswerOutcome.invalidState, endedStore) :=
  c2_answer_nonringing_no_mutation endedStore "c1" "bob" 300 endedSession
    (by decide) (by decide)

/-! ### Claim C1 -/

/-- The racing interleaving: both transactions run their validation SELECT
before either commits; then each in turn takes the row lock, writes and
commits. -/
def concurrentSched : List (Bool × TxnStep) :=
  [(true, TxnStep.readStep), (false, TxnStep.readStep),
   (true, TxnStep.writeStep), (true, TxnStep.commitStep),
   (false, TxnStep.writeStep), (false, TxnStep.commitStep)]

/-- The serialized interleaving: the second transaction only reads after the
first has committed. -/
def serialSched : List (Bool × TxnStep) :=
  [(true, TxnStep.readStep), (true, TxnStep.writeStep),
   (true, TxnStep.commitStep), (false, TxnStep.readStep)]

/-- Counterexample to claim C1: on a concrete ringing session, the
interleaving in which both `answer` transactions run their validation SELECT
before either commits ends with BOTH transactions succeeding — the plain
SELECT takes no row lock, so nothing forces one of them to observe the
other's `active` status — and `started_at` is written twice (the survivor is
the second writer's clock, 6, not the first's 5).  This contradicts
"exactly one succeeds ... and the other fails with InvalidStateError, the
exclusion being provided by row-level select-for-update locking". -/
theorem c1_counterexample :
    (runAnswerRace "c1" (mkRace ringingStore "bob" "carol" 5 6)
        concurrentSched).txn1.phase = TxnPhase.finished AnswerOutcome.ok ∧
    (runAnswerRace "c1" (mkRace ringingStore "bob" "carol" 5 6)
        concurrentSched).txn2.phase = TxnPhase.finished AnswerOutcome.ok ∧
    (findSession (runAnswerRace "c1" (mkRace ringingStore "bob" "carol" 5 6)
        concurrentSched).committed "c1").map Session.started_at
      = some (some 6) := by decide

/-- Claim C1 amended: the answer validation SELECT takes no row lock, so two
concurrent `answer` transactions on the same ringing session are mutually
excluded only when they serialize.  If both run the validation SELECT before
either commits, both succeed (and `started_at` is written twice); exactly
one succeeds — the other failing with InvalidStateError — only in schedules
where the second transaction's SELECT runs after the first transaction's
commit. -/
theorem c1_amended (db : Store) (c u1 u2 : String) (n1 n2 : Nat) (s : Session)
    (hs : findSession db c = some s) (hr : s.status = SessionStatus.ringing) :
    ((runAnswerRace c (mkRace db u1 u2 n1 n2) concurrentSched).txn1.phase
        = TxnPhase.finished AnswerOutcome.ok ∧
     (runAnswerRace c (mkRace db u1 u2 n1 n2) concurrentSched).txn2.phase
        = TxnPhase.finished AnswerOutcome.ok) ∧
    ((runAnswerRace c (mkRace db u1 u2 n1 n2) serialSched).txn1.phase
        = TxnPhase.finished AnswerOutcome.ok ∧
     (runAnswerRace c (mkRace db u1 u2 n1 n2) serialSched).txn2.phase
        = TxnPhase.finished AnswerOutcome.invalidState) := by
  refine ⟨⟨?_, ?_⟩, ⟨?_, ?_⟩⟩ <;>
    simp [runAnswerRace, concurrentSched, serialSched, stepAnswer, getTxn,
          setTxn, mkRace, hs, hr, findSession_applyAnswerWrites]

/-- Witness for the amended C1 on the concrete ringing store. -/
theorem c1_witness :
    (runAnswerRace "c1" (mkRace ringingStore "bob" "carol" 5 6)
        serialSched).txn2.phase = TxnPhase.finished AnswerOutcome.invalidState :=
  (c1_amended ringingStore "c1" "bob" "carol" 5 6
    (mkSession SessionStatus.ringing) (by decide) (by decide)).2.2

/-! ### Claim C4 -/

/-- Counterexample to claim C4: `c1` of `endedStore` is terminal (`ended`),
yet a subsequent `reject` moves its status to `rejected` and overwrites
`ended_at` — terminal sessions are not immutable and the move
`ended → rejected` is not forward along the state machine. -/
theorem c4_counterexample :
    (findSession endedStore "c1").map Session.status
        = some SessionStatus.ended ∧
    (findSession (rejectDb endedStore "c1" "bob" 300).snd "c1").map
        Session.status = some SessionStatus.rejected ∧
    (findSession (rejectDb endedStore "c1" "bob" 300).snd "c1").map
        Session.ended_at = some (some 300) := by decide

/-- Claim C4 amended: the state machine is enforced only at `answer`, which
leaves the store untouched unless the session is `ringing`; `reject` and
`end` carry no status precondition, so they set any existing session —
terminal or not — to `rejected` / `ended` with a fresh `ended_at`, and
`toggleMedia` never touches the session rows. -/
theorem c4_amended (db : Store) (c u : String) (n : Nat) :
    (∀ s, findSession db c = some s → s.status ≠ SessionStatus.ringing →
      (answerDb db c u n).snd = db) ∧
    (∀ s, findSession db c = some s →
      findSession (rejectDb db c u n).snd c =
        some { s with status := SessionStatus.rejected, ended_at := some n }) ∧
    (∀ s, findSession db c = some s →
      findSession (endDb db c u n).snd c =
        some { s with status := SessionStatus.ended, ended_at := some n }) ∧
    (∀ k e, (toggleMedia db c u k e).sessions = db.sessions) := by
  refine ⟨fun s hs hnr => ?_, fun s hs => ?_, fun s hs => ?_, fun k e => rfl⟩
  · simp [answerDb, hs, hnr]
  · exact findSession_rejectWrites db c u n s hs
  · exact findSession_endWrites db c u n s hs

/-- Witness for the amended C4: rejecting the already-ended `c1`. -/
theorem c4_witness :
    findSession (rejectDb endedStore "c1" "bob" 300).snd "c1" =
      some { endedSession with
              status := SessionStatus.rejected,
              ended_at := some 300 } :=
  (c4_amended endedStore "c1" "bob" 300).2.1 endedSession (by decide)

/-! ### Claim C3 -/

/-- Claim C3: on every successful `initiate`, the transaction creating the
`ringing` session, the initiator's `joined` participant row and the
`call_initiated` event commits strictly before the relay incoming-call
notification step runs (the `notifyIncoming` step occurs exactly once, after
`commitTxn`), and the committed store at that point already contains the
session — so a notification recipient reading the call's status can never
observe "not found": `getStatus` returns the `ringing` session. -/
theorem c3_commit_before_notify (db : Store)
    (roomId callType accessToken userId callId : String) (now : Nat)
    (hr : roomId ≠ "") (hct : callType = "voice" ∨ callType = "video")
    (hat : accessToken ≠ "") (hu : userId ≠ "")
    (hfresh : findSession db callId = none) :
    (initiate db roomId callType accessToken userId callId now).2.1.indexOf
        InitStep.commitTxn <
      (initiate db roomId callType accessToken userId callId now).2.1.indexOf
        InitStep.notifyIncoming ∧
    (initiate db roomId callType accessToken userId callId now).2.1.count
        InitStep.notifyIncoming = 1 ∧
    (∃ pr, getStatus
        (initiate db roomId callType accessToken userId callId now).fst callId =
      some ({ call_id := callId, room_id := roomId, call_type := callType,
              status := SessionStatus.ringing, initiator_id := userId,
              started_at := none, ended_at := none, created_at := now }, pr)) := by
  have hne : ¬ (roomId = "" ∨ callType = "" ∨ accessToken = "" ∨ userId = "") := by
    rcases hct with h | h <;> simp [hr, hat, hu, h]
  have hok : ¬ ¬ (callType = "voice" ∨ callType = "video") := not_not_intro hct
  have hfresh' : db.sessions.find? (fun t => t.call_id = callId) = none := hfresh
  refine ⟨?_, ?_, ?_⟩
  · simp [initiate, hne, hok]
  · simp [initiate, hne, hok]
  · refine ⟨(db.participants ++
        [({ call_id := callId, matrix_user_id := userId,
            status := PartStatus.joined, audio_enabled := true,
            video_enabled := true, joined_at := none,
            left_at := none } : Participant)]).filter
          (fun p => p.call_id = callId), ?_⟩
    simp only [initiate, hne, hok, if_false, if_neg, getStatus, findSession]
    rw [List.find?_append, hfresh']
    simp

/-- Witness for C3 at a concrete initiate call. -/
theorem c3_witness :
    (initiate emptyStore "r1" "video" "tok" "alice" "c1" 100).2.1.indexOf
        InitStep.commitTxn <
      (initiate emptyStore "r1" "video" "tok" "alice" "c1" 100).2.1.indexOf
        InitStep.notifyIncoming :=
  (c3_commit_before_notify emptyStore "r1" "video" "tok" "alice" "c1" 100
    (by decide) (Or.inr rfl) (by decide) (by decide) (by decide)).1

/-! ### Claim C5 -/

/-- A relay with no registered sockets, no tracked calls, no pending
notifications and no occupied rooms (fresh process). -/
def emptyRelay : RelayState :=
  { userSockets := [], callParticipants := [],
    pendingCallNotifications := [], rooms := [] }

/-- Claim C5 is violated by the code: after alice initiates call `c1` in a
room whose members are alice and bob, the notification step queues bob's
incoming-call payload (bob is offline) but creates NO participant row — in
fact `notifyIncomingCall` takes and returns no store at all — so bob has no
`invited` row and `GET /active` (the `listPendingForUser` polling fallback)
returns no calls for bob even though `c1` is still ringing and well inside
the 90-second window.  This contradicts the route's own comments, which say
the notification step "stores each as 'invited' participant in DB" and that
"call_participants is populated by notifyIncomingCall". -/
theorem c5_no_invited_rows :
    partRowCount (initiate emptyStore "r1" "video" "tok" "alice" "c1" 100).fst
        "c1" "bob" = 0 ∧
    listActive (initiate emptyStore "r1" "video" "tok" "alice" "c1" 100).fst
        "bob" 150 = [] ∧
    mget (notifyIncomingCall emptyRelay ["alice", "bob"] "r1" "c1" "video"
        "alice" "Alice").fst.pendingCallNotifications "bob" =
      some [{ callId := "c1", callType := "video", roomId := "r1",
              callerName := "Alice", callerId := "alice" }] := by decide

/-! ### Claim C6 -/

/-- Lookup via `mget` after `mdelete` finds nothing. -/
theorem mget_mdelete {α : Type} (m : List (String × α)) (k : String) :
    mget (mdelete m k) k = none := by
  have hnone : (m.filter (fun kv => kv.fst ≠ k)).find?
      (fun kv => kv.fst = k) = none := by
    rw [List.find?_eq_none]
    intro x hx
    have hne := List.of_mem_filter hx
    simpa using hne
  simp [mget, mdelete, hnone]

/-- Claim C6: a pending incoming-call notification queued for a user with no
connections, still present when the user registers a connection (i.e. the
90-second expiry has not yet removed it): if the underlying session is still
`ringing` in the store, the event is emitted exactly once, to the
registering connection, and the pending entry is removed; if the session has
left `ringing` (or is unknown), the entry is removed without any
emission. -/
theorem c6_pending_redeemed_once (st : RelayState) (db : Store)
    (userId socketId : String) (e : PendingCall)
    (hp : mget st.pendingCallNotifications userId = some [e]) :
    (mget (registerUser st db userId socketId).fst.pendingCallNotifications
        userId = none) ∧
    (∀ s, findSession db e.callId = some s →
      s.status = SessionStatus.ringing →
      (registerUser st db userId socketId).snd =
        [{ socketId := socketId, event := ServerEvent.incomingCall e }]) ∧
    ((∀ s, findSession db e.callId = some s →
        s.status ≠ SessionStatus.ringing) →
      (registerUser st db userId socketId).snd = []) := by
  refine ⟨?_, ?_, ?_⟩
  · simp [registerUser, hp, mget_mdelete]
  · intro s hs hr
    simp [registerUser, hp, hs, hr]
  · intro hnr
    cases hfind : findSession db e.callId with
    | none => simp [registerUser, hp, hfind]
    | some s => simp [registerUser, hp, hfind, hnr s hfind]

/-- Witness for C6: bob reconnects while `c1` is still ringing; the queued
payload is delivered once and the queue entry dropped. -/
theorem c6_witness :
    (mget (registerUser
        { emptyRelay with pendingCallNotifications :=
            [("bob", [{ callId := "c1", callType := "video", roomId := "r1",
                        callerName := "Alice", callerId := "alice" }])] }
        ringingStore "bob" "s1").fst.pendingCallNotifications "bob" = none) ∧
    (registerUser
        { emptyRelay with pendingCallNotifications :=
            [("bob", [{ callId := "c1", callType := "video", roomId := "r1",
                        callerName := "Alice", callerId := "alice" }])] }
        ringingStore "bob" "s1").snd =
      [{ socketId := "s1", event := ServerEvent.incomingCall
          { callId := "c1", callType := "video", roomId := "r1",
            callerName := "Alice", callerId := "alice" } }] := by
  have h := c6_pending_redeemed_once
    { emptyRelay with pendingCallNotifications :=
        [("bob", [{ callId := "c1", callType := "video", roomId := "r1",
                    callerName := "Alice", callerId := "alice" }])] }
    ringingStore "bob" "s1"
    { callId := "c1", callType := "video", roomId := "r1",
      callerName := "Alice", callerId := "alice" } (by decide)
  exact ⟨h.1, h.2.1 (mkSession SessionStatus.ringing) (by decide) (by decide)⟩

/-! ### Claim C7 -/

/-- A `countP` is unchanged by a map that does not disturb the predicate. -/
theorem countP_map_pres {α : Type} (l : List α) (f : α → α) (p : α → Bool)
    (hf : ∀ a, p (f a) = p a) : (l.map f).countP p = l.countP p := by
  induction l with
  | nil => rfl
  | cons a t ih => simp [List.countP_cons, hf, ih]

/-- The predicate selecting the participant rows of one `(call, user)`. -/
def pkey (c u : String) : Participant → Bool :=
  fun p => p.call_id = c ∧ p.matrix_user_id = u

/-- The participant upsert of the answer handler preserves at-most-one row
per `(call_id, matrix_user_id)`: when a row exists it is updated in place,
and the fresh row is inserted only when none exists. -/
theorem upsertJoined_le_one (ps : List Participant) (c u c' u' : String)
    (n : Nat) (h : ps.countP (pkey c' u') ≤ 1) :
    (upsertJoined ps c u n).countP (pkey c' u') ≤ 1 := by
  have hmap : (ps.map (fun p =>
      if p.call_id = c ∧ p.matrix_user_id = u then
        { p with status := PartStatus.joined, joined_at := some n }
      else p)).countP (pkey c' u') = ps.countP (pkey c' u') := by
    refine countP_map_pres _ _ _ (fun p => ?_)
    by_cases hm : p.call_id = c ∧ p.matrix_user_id = u <;> simp [pkey, hm]
  unfold upsertJoined
  by_cases hex : ps.any (fun p => p.call_id = c ∧ p.matrix_user_id = u) = true
  · rw [if_pos hex, hmap]
    exact h
  · rw [if_neg hex, List.countP_append, hmap]
    by_cases hk : c' = c ∧ u' = u
    · obtain ⟨rfl, rfl⟩ := hk
      have hzero : ps.countP (pkey c' u') = 0 := by
        rw [List.countP_eq_zero]
        intro p hp
        have := List.any_eq_false.mp (Bool.eq_false_iff.mpr hex) p hp
        simpa [pkey] using this
      rw [hzero]
      simp [pkey, List.countP_cons]
    · have hnew : pkey c' u'
          ({ call_id := c, matrix_user_id := u, status := PartStatus.joined,
             audio_enabled := true, video_enabled := true,
             joined_at := some n, left_at := none } : Participant) = false := by
        simp only [pkey, decide_eq_false_iff_not]
        intro hcontra
        exact hk ⟨hcontra.1.symm, hcontra.2.symm⟩
      have hone : List.countP (pkey c' u')
          [({ call_id := c, matrix_user_id := u, status := PartStatus.joined,
              audio_enabled := true, video_enabled := true,
              joined_at := some n, left_at := none } : Participant)] = 0 := by
        simp [List.countP_cons, hnew]
      rw [hone]
      omega


/-- Unfolding: `partRowCount` is `countP` of the key predicate. -/
theorem partRowCount_eq (db : Store) (c u : String) :
    partRowCount db c u = db.participants.countP (pkey c u) := rfl

/-- Claim C7: for every `callId` at most one CallSession row (UNIQUE
`call_id` of migration 004, plus fresh random generation at initiate, which
inserts exactly one); at most one CallParticipant row per
`(callId, userId)`: the table carries the uniqueness constraint of migration
005, and every operation — in particular the answer upsert — preserves the
at-most-one invariant, so no sequence of initiate/answer/reject/end/toggle
operations can create a duplicate. -/
theorem c7_unique_rows :
    (["call_id", "matrix_user_id"] ∈ callParticipantsTable.uniqueConstraints) ∧
    (["call_id"] ∈ callSessionsTable.uniqueConstraints) ∧
    (∀ db c u n, StoreWF db → StoreWF (answerDb db c u n).snd) ∧
    (∀ db c u n, StoreWF db → StoreWF (rejectDb db c u n).snd) ∧
    (∀ db c u n, StoreWF db → StoreWF (endDb db c u n).snd) ∧
    (∀ db c u k e, StoreWF db → StoreWF (toggleMedia db c u k e)) ∧
    (∀ db r ct tok u c n, StoreWF db → findSession db c = none →
      (∀ v, partRowCount db c v = 0) →
      StoreWF (initiate db r ct tok u c n).fst ∧
      ((initiate db r ct tok u c n).2.2 ≠ InitiateOutcome.validationError →
        (initiate db r ct tok u c n).fst.sessions.countP
          (fun s => s.call_id = c) = 1)) := by
  refine ⟨by decide, by decide, ?_, ?_, ?_, ?_, ?_⟩
  · intro db c u n h
    cases hf : findSession db c with
    | none => simpa [answerDb, hf] using h
    | some s =>
      by_cases hr : s.status = SessionStatus.ringing
      · simp only [answerDb, hf, if_pos hr]
        refine ⟨fun c'' => ?_, fun c'' u'' => ?_⟩
        · show ((db.sessions.map _).countP _) ≤ 1
          rw [countP_map_pres _ _ _
            (fun t => by by_cases ht : t.call_id = c <;> simp [ht])]
          exact h.1 c''
        · show (upsertJoined db.participants c u n).countP (pkey c'' u'') ≤ 1
          exact upsertJoined_le_one db.participants c u c'' u'' n
            (by rw [← partRowCount_eq]; exact h.2 c'' u'')
      · simpa [answerDb, hf, if_neg hr] using h
  · intro db c u n h
    cases hf : findSession db c with
    | none => simpa [rejectDb, hf] using h
    | some s =>
      simp only [rejectDb, hf]
      refine ⟨fun c'' => ?_, fun c'' u'' => ?_⟩
      · show ((db.sessions.map _).countP _) ≤ 1
        rw [countP_map_pres _ _ _
          (fun t => by by_cases ht : t.call_id = c <;> simp [ht])]
        exact h.1 c''
      · show ((db.participants.map _).countP (pkey c'' u'')) ≤ 1
        rw [countP_map_pres _ _ _ (fun p => by
          by_cases hp : p.call_id = c ∧ p.matrix_user_id = u <;>
            simp [pkey, hp])]
        rw [← partRowCount_eq]
        exact h.2 c'' u''
  · intro db c u n h
    cases hf : findSession db c with
    | none => simpa [endDb, hf] using h
    | some s =>
      simp only [endDb, hf]
      refine ⟨fun c'' => ?_, fun c'' u'' => ?_⟩
      · show ((db.sessions.map _).countP _) ≤ 1
        rw [countP_map_pres _ _ _
          (fun t => by by_cases ht : t.call_id = c <;> simp [ht])]
        exact h.1 c''
      · show ((db.participants.map _).countP (pkey c'' u'')) ≤ 1
        rw [countP_map_pres _ _ _ (fun p => by
          by_cases hp : p.call_id = c ∧ p.status = PartStatus.joined <;>
            simp [pkey, hp])]
        rw [← partRowCount_eq]
        exact h.2 c'' u''
  · intro db c u k e h
    refine ⟨fun c'' => h.1 c'', fun c'' u'' => ?_⟩
    show ((db.participants.map _).countP (pkey c'' u'')) ≤ 1
    rw [countP_map_pres _ _ _ (fun p => by
      by_cases hp : p.call_id = c ∧ p.matrix_user_id = u <;>
        cases k <;> simp [pkey, hp])]
    rw [← partRowCount_eq]
    exact h.2 c'' u''
  · intro db r ct tok u c n h hfresh hfp
    have hfresh' : db.sessions.find? (fun t => t.call_id = c) = none := hfresh
    have hzero : db.sessions.countP (fun s => s.call_id = c) = 0 := by
      rw [List.countP_eq_zero]
      intro t ht
      simpa using List.find?_eq_none.mp hfresh' t ht
    by_cases h1 : r = "" ∨ ct = "" ∨ tok = "" ∨ u = ""
    · simp only [initiate, if_pos h1]
      exact ⟨h, fun hcon => absurd rfl hcon⟩
    · by_cases h2 : ¬ (ct = "voice" ∨ ct = "video")
      · simp only [initiate, if_neg h1, if_pos h2]
        exact ⟨h, fun hcon => absurd rfl hcon⟩
      · simp only [initiate, if_neg h1, if_neg h2]
        refine ⟨⟨fun c'' => ?_, fun c'' u'' => ?_⟩, fun _ => ?_⟩
        · show (db.sessions ++ [_]).countP _ ≤ 1
          rw [List.countP_append]
          by_cases hc : c = c''
          · subst hc
            rw [hzero]
            simp [List.countP_cons]
          · have : List.countP (fun s => s.call_id = c'')
                [({ call_id := c, room_id := r, call_type := ct,
                    status := SessionStatus.ringing, initiator_id := u,
                    started_at := none, ended_at := none,
                    created_at := n } : Session)] = 0 := by
              simp [List.countP_cons, hc]
            rw [this]
            have := h.1 c''
            omega
        · show (db.participants ++ [_]).countP (pkey c'' u'') ≤ 1
          rw [List.countP_append]
          by_cases hc : c = c''
          · subst hc
            have h0 : db.participants.countP (pkey c u'') = 0 := by
              rw [← partRowCount_eq]; exact hfp u''
            rw [h0]
            have : List.countP (pkey c u'')
                [({ call_id := c, matrix_user_id := u,
                    status := PartStatus.joined, audio_enabled := true,
                    video_enabled := true, joined_at := none,
                    left_at := none } : Participant)] ≤ 1 :=
              le_trans (List.countP_le_length _) (by simp)
            omega
          · have h1 : List.countP (pkey c'' u'')
                [({ call_id := c, matrix_user_id := u,
                    status := PartStatus.joined, audio_enabled := true,
                    video_enabled := true, joined_at := none,
                    left_at := none } : Participant)] = 0 := by
              simp only [List.countP_cons, List.countP_nil, pkey]
              simp [hc, decide_eq_false_iff_not]
            rw [h1]
            have h2 := h.2 c'' u''
            rw [partRowCount_eq] at h2
            omega
        · show (db.sessions ++ [_]).countP _ = 1
          rw [List.countP_append, hzero]
          simp [List.countP_cons]

/-- Witness for C7: the preservation clauses applied to the concrete ringing
store (whose rows are trivially unique). -/
theorem c7_witness : StoreWF (answerDb ringingStore "c1" "bob" 5).snd :=
  c7_unique_rows.2.2.1 ringingStore "c1" "bob" 5
    ⟨fun _ => le_trans (List.countP_le_length _) (by decide),
     fun _ _ => le_trans (List.countP_le_length _) (by decide)⟩

/-! ### Claim C8 -/

/-- Claim C8: for a user registered on several simultaneous connections,
every relay event addressed to them reaches every one of those connections:
the unicast path of `sendToTarget` emits to each socket of the named
target's registered set, and the broadcast path emits to each socket of
every tracked call participant other than the sender. -/
theorem c8_all_devices (st : RelayState) (eventName callId senderId u s : String)
    (ss : List String) (hus : mget st.userSockets u = some ss)
    (hmem : s ∈ ss) (hall : u ≠ "all") :
    (({ socketId := s, event := ServerEvent.relayed eventName senderId } :
        Emission) ∈ sendToTarget st eventName callId senderId (some u)) ∧
    (∀ ps, mget st.callParticipants callId = some ps → u ∈ ps →
      u ≠ senderId →
      ({ socketId := s, event := ServerEvent.relayed eventName senderId } :
        Emission) ∈ sendToTarget st eventName callId senderId none) := by
  constructor
  · simp only [sendToTarget, if_pos hall, hus]
    exact List.mem_map.mpr ⟨s, hmem, rfl⟩
  · intro ps hps humem hne
    simp only [sendToTarget, hps]
    refine List.mem_flatMap.mpr ⟨u, ?_, ?_⟩
    · exact List.mem_filter.mpr ⟨humem, by simpa using hne⟩
    · rw [hus]
      exact List.mem_map.mpr ⟨s, hmem, rfl⟩

/-- Witness for C8: bob's two devices both receive a unicast offer and a
broadcast offer. -/
theorem c8_witness :
    (({ socketId := "s2", event := ServerEvent.relayed "webrtc-offer" "alice" } :
        Emission) ∈ sendToTarget
          { emptyRelay with
              userSockets := [("bob", ["s1", "s2"])],
              callParticipants := [("c1", ["alice", "bob"])] }
          "webrtc-offer" "c1" "alice" (some "bob")) ∧
    (({ socketId := "s2", event := ServerEvent.relayed "webrtc-offer" "alice" } :
        Emission) ∈ sendToTarget
          { emptyRelay with
              userSockets := [("bob", ["s1", "s2"])],
              callParticipants := [("c1", ["alice", "bob"])] }
          "webrtc-offer" "c1" "alice" none) := by
  have h := c8_all_devices
    { emptyRelay with
        userSockets := [("bob", ["s1", "s2"])],
        callParticipants := [("c1", ["alice", "bob"])] }
    "webrtc-offer" "c1" "alice" "bob" "s2" ["s1", "s2"]
    (by decide) (by decide) (by decide)
  exact ⟨h.1, h.2 ["alice", "bob"] (by decide) (by decide) (by decide)⟩

/-! ### Claim C9 -/

/-- Replace at an existing key: `find?` over the replacing map yields the
new pair. -/
theorem find?_map_replace {α : Type} (m : List (String × α)) (k : String)
    (v : α) (hex : m.any (fun kv => kv.fst = k) = true) :
    (m.map (fun kv => if kv.fst = k then (k, v) else kv)).find?
      (fun kv => kv.fst = k) = some (k, v) := by
  induction m with
  | nil => simp at hex
  | cons a t ih =>
    by_cases ha : a.fst = k
    · simp [ha]
    · have hex' : t.any (fun kv => kv.fst = k) = true := by
        simpa [List.any_cons, ha] using hex
      simp [ha, ih hex']

/-- Lookup via `mget` after `mset` at the same key yields the new value. -/
theorem mget_mset_self {α : Type} (m : List (String × α)) (k : String)
    (v : α) : mget (mset m k v) k = some v := by
  unfold mget mset
  by_cases hex : m.any (fun kv => kv.fst = k) = true
  · rw [if_pos hex, find?_map_replace m k v hex]
    rfl
  · rw [if_neg hex]
    have hnone : m.find? (fun kv => kv.fst = k) = none := by
      rw [List.find?_eq_none]
      intro x hx
      have := List.any_eq_false.mp (Bool.eq_false_iff.mpr hex) x hx
      simpa using this
    rw [List.find?_append, hnone]
    simp

/-- A store in which bob has also joined call `c1`. -/
def bobJoinedStore : Store :=
  { ringingStore with participants := ringingStore.participants ++
      [{ call_id := "c1", matrix_user_id := "bob",
         status := PartStatus.joined, audio_enabled := true,
         video_enabled := true, joined_at := some 5, left_at := none }] }

/-- A relay where bob is registered on two devices `s1`, `s2`, device `s1`
has joined call `c1`'s room (together with alice's socket `sA`), and bob is
tracked as a participant of `c1`. -/
def twoDeviceRelay : RelayState :=
  { userSockets := [("bob", ["s1", "s2"])],
    callParticipants := [("c1", ["alice", "bob"])],
    pendingCallNotifications := [],
    rooms := [("c1", ["s1", "sA"])] }

/-- Counterexample to claim C9: bob's device `s1` (attached to call `c1`)
disconnects while bob's other device `s2` stays registered.  The code still
marks bob's participant row `left` and still broadcasts `user-left`, even
though the disconnected connection was NOT bob's last one — refuting the
"if and only if it was the last connection" part of the claim. -/
theorem c9_counterexample :
    (mget (onDisconnect twoDeviceRelay bobJoinedStore "s1" (some "bob")
        (some "c1") 50).fst.userSockets "bob" = some ["s2"]) ∧
    ((onDisconnect twoDeviceRelay bobJoinedStore "s1" (some "bob")
        (some "c1") 50).2.1.participants.countP
      (fun p => p.matrix_user_id = "bob" ∧ p.status = PartStatus.leftCall)
        = 1) ∧
    ((onDisconnect twoDeviceRelay bobJoinedStore "s1" (some "bob")
        (some "c1") 50).2.2 =
      [{ socketId := "sA", event := ServerEvent.userLeft "bob" }]) := by decide

/-- Claim C9 amended: on disconnect, the socket is removed from the user's
registry entry and the entry is deleted exactly when its set becomes empty;
the participant is marked `left` (only the row still `joined`) and
`user-left` is broadcast to the rest of the socket.io room if and only if
the disconnected socket had a call attached (`socket.callId` set by
join-call) — regardless of whether the user still has other registered
connections. -/
theorem c9_amended (st : RelayState) (db : Store) (s u c : String)
    (ss : List String) (n : Nat) (hus : mget st.userSockets u = some ss) :
    ((ss.filter (fun x => x ≠ s) = [] →
       mget (onDisconnect st db s (some u) (some c) n).fst.userSockets u
         = none) ∧
     (ss.filter (fun x => x ≠ s) ≠ [] →
       mget (onDisconnect st db s (some u) (some c) n).fst.userSockets u
         = some (ss.filter (fun x => x ≠ s)))) ∧
    ((onDisconnect st db s (some u) (some c) n).2.1.participants =
       db.participants.map (fun p =>
         if p.call_id = c ∧ p.matrix_user_id = u ∧
            p.status = PartStatus.joined then
           { p with status := PartStatus.leftCall, left_at := some n }
         else p) ∧
     (onDisconnect st db s (some u) (some c) n).2.2 =
       (((mget st.rooms c).getD []).filter (fun sid => sid ≠ s)).map
         (fun sid => { socketId := sid, event := ServerEvent.userLeft u })) ∧
    ((onDisconnect st db s (some u) none n).2.1 = db ∧
     (onDisconnect st db s (some u) none n).2.2 = []) := by
  refine ⟨⟨?_, ?_⟩, ⟨?_, ?_⟩, ?_, ?_⟩
  · intro hempty
    simp only [onDisconnect, unregisterSocket, hus]
    rw [if_pos hempty, mget_mdelete]
  · intro hne
    simp only [onDisconnect, unregisterSocket, hus]
    rw [if_neg hne, mget_mset_self]
  · simp [onDisconnect, disconnectWrite]
  · simp [onDisconnect, disconnectWrite]
  · simp [onDisconnect, disconnectWrite]
  · simp [onDisconnect, disconnectWrite]

/-- Witness for the amended C9 on the two-device relay. -/
theorem c9_witness :
    mget (onDisconnect twoDeviceRelay bobJoinedStore "s1" (some "bob")
        (some "c1") 50).fst.userSockets "bob" = some ["s2"] := by
  have h := c9_amended twoDeviceRelay bobJoinedStore "s1" "bob" "c1"
    ["s1", "s2"] 50 (by decide)
  have h2 := h.1.2 (by decide)
  simpa using h2

/-! ### Claim C10 -/

/-- Occurrences in a flatMap, summed per source element. -/
theorem count_flatMap_sum {α β : Type} [BEq β] (l : List α) (g : α → List β)
    (x : β) : (l.flatMap g).count x = (l.map (fun a => (g a).count x)).sum := by
  induction l with
  | nil => rfl
  | cons a tl ih => simp [List.flatMap_cons, ih]

/-- Summing a function over a list in which `p` occurs exactly once and
every other element contributes zero gives the value at `p`. -/
theorem sum_eq_of_count_one (l : List String) (h : String → Nat) (p : String)
    (hc : l.count p = 1) (hz : ∀ q ∈ l, q ≠ p → h q = 0) :
    (l.map h).sum = h p := by
  induction l with
  | nil => simp at hc
  | cons a tl ih =>
    by_cases ha : a = p
    · subst ha
      have htl : tl.count a = 0 := by
        have := List.count_cons_self a tl
        omega
      have hzt : (tl.map h).sum = 0 := by
        apply List.sum_eq_zero
        intro x hx
        obtain ⟨q, hq, rfl⟩ := List.mem_map.mp hx
        have hqa : q ≠ a := fun hcon =>
          (List.count_eq_zero.mp htl) (hcon ▸ hq)
        exact hz q (List.mem_cons_of_mem _ hq) hqa
      simp [hzt]
    · have hc' : tl.count p = 1 := by
        rw [List.count_cons] at hc
        simpa [ha, (fun hcon : p = a => ha hcon.symm)] using hc
      have hza : h a = 0 := hz a (List.mem_cons_self a tl) ha
      simp [hza, ih hc' (fun q hq => hz q (List.mem_cons_of_mem _ hq))]

/-- Claim C10: `notifyCallEnded` emits the `call-ended` event both directly
(to every registered socket of every tracked participant other than
`endedBy`) and to the whole socket.io room.  Hence a socket `s` of a tracked
non-ender participant that also joined the room receives the event exactly
twice, while a socket `t` that joined the room but is not registered to any
tracked non-ender participant — such as one of `endedBy`'s own joined
connections — receives it exactly once, via the room broadcast. -/
theorem c10_call_ended_double_delivery (st : RelayState)
    (callId endedBy p s t : String) (ps ss rs : List String)
    (hmem : mget st.callParticipants callId = some ps)
    (hpne : p ≠ endedBy) (hponce : ps.count p = 1)
    (hus : mget st.userSockets p = some ss) (hsonce : ss.count s = 1)
    (hroom : mget st.rooms callId = some rs) (hronce : rs.count s = 1)
    (hothers : ∀ q ∈ ps, q ≠ endedBy → q ≠ p →
      s ∉ (mget st.userSockets q).getD [])
    (htonce : rs.count t = 1)
    (htnot : ∀ q ∈ ps, q ≠ endedBy → t ∉ (mget st.userSockets q).getD []) :
    ((notifyCallEnded st callId endedBy).count
      { socketId := s, event := ServerEvent.callEnded callId endedBy } = 2) ∧
    ((notifyCallEnded st callId endedBy).count
      { socketId := t, event := ServerEvent.callEnded callId endedBy } = 1) := by
  have hinj : Function.Injective (fun sid =>
      ({ socketId := sid,
         event := ServerEvent.callEnded callId endedBy } : Emission)) := by
    intro a b hab
    simpa using congrArg Emission.socketId hab
  have hfiltc : (ps.filter (fun q => q ≠ endedBy)).count p = 1 := by
    rw [List.count_filter (by simpa using hpne)]
    exact hponce
  unfold notifyCallEnded
  rw [hmem, hroom]
  constructor
  · rw [List.count_append, count_flatMap_sum]
    have hsum := sum_eq_of_count_one (ps.filter (fun q => q ≠ endedBy))
      (fun q => (((mget st.userSockets q).getD []).map (fun sid =>
        ({ socketId := sid,
           event := ServerEvent.callEnded callId endedBy } : Emission))).count
        { socketId := s, event := ServerEvent.callEnded callId endedBy })
      p hfiltc ?_
    · rw [hsum]
      have h1 : ((ss.map (fun sid =>
          ({ socketId := sid,
             event := ServerEvent.callEnded callId endedBy } : Emission))).count
          { socketId := s, event := ServerEvent.callEnded callId endedBy })
            = ss.count s := List.count_map_of_injective ss _ hinj s
      have h2 : ((rs.map (fun sid =>
          ({ socketId := sid,
             event := ServerEvent.callEnded callId endedBy } : Emission))).count
          { socketId := s, event := ServerEvent.callEnded callId endedBy })
            = rs.count s := List.count_map_of_injective rs _ hinj s
      simp only [hus, Option.getD_some]
      rw [h1, h2, hsonce, hronce]
    · intro q hq hqp
      obtain ⟨hqps, hqne⟩ := List.mem_filter.mp hq
      have hnot : s ∉ (mget st.userSockets q).getD [] :=
        hothers q hqps (by simpa using hqne) hqp
      dsimp only
      rw [List.count_map_of_injective _ _ hinj s]
      exact List.count_eq_zero.mpr hnot
  · rw [List.count_append, count_flatMap_sum]
    have hzero : ((ps.filter (fun q => q ≠ endedBy)).map
        (fun q => (((mget st.userSockets q).getD []).map (fun sid =>
          ({ socketId := sid,
             event := ServerEvent.callEnded callId endedBy } : Emission))).count
          { socketId := t, event := ServerEvent.callEnded callId endedBy })).sum
        = 0 := by
      apply List.sum_eq_zero
      intro x hx
      obtain ⟨q, hq, rfl⟩ := List.mem_map.mp hx
      obtain ⟨hqps, hqne⟩ := List.mem_filter.mp hq
      rw [List.count_map_of_injective _ _ hinj t]
      exact List.count_eq_zero.mpr (htnot q hqps (by simpa using hqne))
    rw [hzero]
    simp only [Option.getD_some]
    rw [List.count_map_of_injective _ _ hinj t, htonce]

/-- Witness for C10: bob's socket `s1` (tracked participant + room member)
receives call-ended twice; alice (the ender)'s socket `sA` receives it once
via the room broadcast. -/
theorem c10_witness :
    ((notifyCallEnded twoDeviceRelay "c1" "alice").count
      { socketId := "s1", event := ServerEvent.callEnded "c1" "alice" } = 2) ∧
    ((notifyCallEnded twoDeviceRelay "c1" "alice").count
      { socketId := "sA", event := ServerEvent.callEnded "c1" "alice" } = 1) := by
  have h := c10_call_ended_double_delivery twoDeviceRelay "c1" "alice" "bob"
    "s1" "sA" ["alice", "bob"] ["s1", "s2"] ["s1", "sA"]
    (by decide) (by decide) (by decide) (by decide) (by decide)
    (by decide) (by decide) (by decide) (by decide) (by decide)
  exact h

end CallCore
